import Mathlib

/-!
Verification of the catalyst repository against its specification.

We shallowly embed the relevant program fragments:
  * `Position.update` and `Position.handle_split`
    (catalyst/finance/performance/position.py), with Python floats
    modelled as exact rationals;
  * `_shift_dates` (catalyst/pipeline/loaders/crypto_pricing_loader.py),
    with the calendar modelled as a strictly increasing list of integer
    dates and pandas `get_loc` as a first-index lookup;
  * the `Classifier` operator guards `eq`, `__ne__` and `element_of`
    (catalyst/pipeline/classifiers/classifier.py), with filters carried
    as their cell-level boolean predicate;
  * `Quantiles._compute` (same file), with NaN-able matrices modelled as
    lists of `Option` rationals;
  * `_load_cached_data`, `ensure_benchmark_data` and
    `ensure_treasury_data` (catalyst/data/loader.py), with the I/O
    environment (cache contents, download and write outcomes) passed in
    as explicit parameters and the emitted log records returned.
-/

/- ### Position bookkeeping (catalyst/finance/performance/position.py) -/

/-- A transaction, as used by `Position.update`: `fee_currency` is `none`
when the transaction carries no fee currency. -/
structure Transaction where
  amount : ℚ
  price : ℚ
  dt : ℤ
  commission : Option ℚ
  fee_currency : Option String
deriving Repr, DecidableEq

/-- A per-asset position ledger entry. `base_currency` stands for
`asset.base_currency`; `last_sale_date` is `none` before any fill. -/
structure Position where
  base_currency : String
  amount : ℚ
  cost_basis : ℚ
  last_sale_price : ℚ
  last_sale_date : Option ℤ
deriving Repr, DecidableEq

/-- Python `math.copysign(1, x)` on a rational: 1 for nonnegative
(including zero, which Python treats as +0.0), -1 for negative. -/
def copysign1 (x : ℚ) : ℚ := if x < 0 then -1 else 1

/-- Python `txn.dt > self.last_sale_date` guarded by
`self.last_sale_date is None or ...`. -/
def newerThan (dt : ℤ) (lastDate : Option ℤ) : Bool :=
  match lastDate with
  | none => true
  | some d => dt > d

/-- `Position.update(txn)` from position.py lines 122-162: recompute the
cost basis from `total_shares`, update the last-sale fields when the
transaction is the newest seen, then deduct a live-mode commission from
the share count when the fee currency matches the base currency. -/
def Position.update (p : Position) (t : Transaction) : Position :=
  let total_shares := p.amount + t.amount
  let p1 :=
    if total_shares = 0 then
      { p with cost_basis := 0 }
    else
      let prev_direction := copysign1 p.amount
      let txn_direction := copysign1 t.amount
      let p2 :=
        if prev_direction ≠ txn_direction then
          if |t.amount| > |p.amount| then
            { p with cost_basis := t.price }
          else
            p
        else
          let prev_cost := p.cost_basis * p.amount
          let txn_cost := t.amount * t.price
          let total_cost := prev_cost + txn_cost
          { p with cost_basis := total_cost / total_shares }
      if newerThan t.dt p2.last_sale_date then
        { p2 with last_sale_price := t.price, last_sale_date := some t.dt }
      else
        p2
  let total_shares2 :=
    match t.commission with
    | some c => if t.fee_currency = some p.base_currency then total_shares - c
                else total_shares
    | none => total_shares
  { p1 with amount := total_shares2 }

/-- Python `round(x)` to the nearest integer, ties to even. -/
def roundHalfEven (x : ℚ) : ℤ :=
  let f := ⌊x⌋
  let frac := x - f
  if frac < 1 / 2 then f
  else if 1 / 2 < frac then f + 1
  else if f % 2 = 0 then f else f + 1

/-- Python `round(x, 2)`: round to the nearest cent, ties to even. -/
def round2 (x : ℚ) : ℚ := (roundHalfEven (x * 100) : ℚ) / 100

/-- `Position.handle_split(ratio)` from position.py lines 82-120: floor
the post-split share count, scale the cost basis by the ratio rounded to
cent precision, and return the new position together with the cash value
of the fractional share. -/
def Position.handle_split (p : Position) (ratio : ℚ) : Position × ℚ :=
  let raw_share_count := p.amount / ratio
  let full_share_count : ℚ := (⌊raw_share_count⌋ : ℚ)
  let fractional_share_count := raw_share_count - full_share_count
  let new_cost_basis := round2 (p.cost_basis * ratio)
  let return_cash := round2 (fractional_share_count * new_cost_basis)
  ({ p with cost_basis := new_cost_basis, amount := full_share_count },
   return_cash)

/- ### Date shifting (catalyst/pipeline/loaders/crypto_pricing_loader.py) -/

/-- The two error classes `_shift_dates` can raise: `noFurtherData` for
`NoFurtherDataError` and `valueError` for the plain `ValueError` lookup
failure. -/
inductive ShiftError
  | noFurtherData
  | valueError
deriving Repr, DecidableEq

/-- pandas `DatetimeIndex.get_loc` on a list of dates: the first index
holding the requested date, `none` when absent (a `KeyError`). -/
def get_loc : List ℤ → ℤ → Option ℕ
  | [], _ => none
  | d :: ds, x => if x = d then some 0 else (get_loc ds x).map (· + 1)

/-- Python list indexing with negative-index wraparound, defaulting to 0
out of range (indices produced by `_shift_dates` are always in range). -/
def pyGet (l : List ℤ) (i : ℤ) : ℤ :=
  if 0 ≤ i then l.getD i.toNat 0 else l.getD (l.length - (-i).toNat) 0

/-- `_shift_dates(dates, start_date, end_date, shift)` from
crypto_pricing_loader.py lines 104-147. -/
def shift_dates (dates : List ℤ) (start_date end_date : ℤ) (shift : ℕ) :
    Except ShiftError (ℤ × ℤ) :=
  match get_loc dates start_date with
  | none =>
      if start_date < pyGet dates 0 then .error .noFurtherData
      else .error .valueError
  | some start =>
      if start < shift then .error .noFurtherData
      else
        match get_loc dates end_date with
        | none =>
            if end_date > pyGet dates (-1) then .error .noFurtherData
            else .error .valueError
        | some e =>
            .ok (pyGet dates ((start : ℤ) - (shift : ℤ)),
                 pyGet dates ((e : ℤ) - (shift : ℤ)))

/- ### Classifier operators (catalyst/pipeline/classifiers/classifier.py) -/

/-- The two dtypes a Classifier may have. -/
inductive Dtype
  | int64
  | categorical
deriving Repr, DecidableEq

/-- A scalar cell value or comparison operand: a Python number or
string. -/
inductive Scalar
  | int (n : ℤ)
  | str (s : String)
deriving Repr, DecidableEq

/-- Python `isinstance(other, Number)`. -/
def Scalar.isNumber : Scalar → Bool
  | .int _ => true
  | .str _ => false

/-- The errors the Classifier comparison operators can raise:
`invalidOperation` for the vacuous-result `ValueError` guards,
`typeMismatch` for `InvalidClassifierComparison`, and `typeError` for
malformed `choices`. -/
inductive ClassifierError
  | invalidOperation
  | typeMismatch
  | typeError
deriving Repr, DecidableEq

/-- A constructed Filter term, carried as its cell-level predicate: the
filter is true at a cell exactly where `pred` holds of the cell's
value. -/
structure PipelineFilter where
  pred : Scalar → Bool

/-- The aspects of a Classifier the comparison operators consult. -/
structure Classifier where
  dtype : Dtype
  missing_value : Scalar

/-- `Classifier.eq(other)` from classifier.py lines 76-109: guard
against comparison with the missing value, then against a kind/dtype
mismatch, then build either a `NumExprFilter` `x_0 == other` or an
`ArrayPredicate` with `operator.eq`. -/
def Classifier.eq (c : Classifier) (other : Scalar) :
    Except ClassifierError PipelineFilter :=
  if other = c.missing_value then .error .invalidOperation
  else if other.isNumber ≠ decide (c.dtype = Dtype.int64) then
    .error .typeMismatch
  else if other.isNumber then .ok ⟨fun v => v = other⟩
  else .ok ⟨fun v => v = other⟩

/-- `Classifier.__ne__(other)` from classifier.py lines 111-129: the same
kind/dtype check as `eq` (but no missing-value guard), then either a
`NumExprFilter` for the expression `((x_0 != other) & (x_0 != missing))`
or an `ArrayPredicate` with `operator.ne`. The `ArrayPredicate` branch
applies `LabelArray` not-equal, which is not under src/ and is modelled
from the spec: true where the value differs from `other` and differs from
the missing value (the repository's own tests state the same semantics).
-/
def Classifier.ne (c : Classifier) (other : Scalar) :
    Except ClassifierError PipelineFilter :=
  if other.isNumber ≠ decide (c.dtype = Dtype.int64) then
    .error .typeMismatch
  else if other.isNumber then
    .ok ⟨fun v => v ≠ other ∧ v ≠ c.missing_value⟩
  else
    .ok ⟨fun v => v ≠ other ∧ v ≠ c.missing_value⟩

/-- `Classifier.element_of(choices)` from classifier.py lines 247-319:
guard against the missing value being a choice, then check the choices
are homogeneous with the dtype and build an `ArrayPredicate` testing
membership (`vectorized_is_element` for int64, `LabelArray.element_of`
for categorical; the latter is not under src/ and is modelled from the
spec: true where the value is a member of `choices`). -/
def Classifier.element_of (c : Classifier) (choices : List Scalar) :
    Except ClassifierError PipelineFilter :=
  if c.missing_value ∈ choices then .error .invalidOperation
  else
    match c.dtype with
    | .int64 =>
        if choices.all (fun v => v.isNumber) then
          .ok ⟨fun v => v ∈ choices⟩
        else .error .typeError
    | .categorical =>
        if choices.all (fun v => !v.isNumber) then
          .ok ⟨fun v => v ∈ choices⟩
        else .error .typeError

/- ### Quantiles (catalyst/pipeline/classifiers/classifier.py 392-400) -/

/-- Modelled from the spec: `catalyst.lib.quantiles.quantiles` applied to
one date-row is not under src/; per the spec it bins the numeric input
into `bins` equal-population integer-coded groups, mapping NaN (`none`)
cells to NaN. We code each non-NaN value by the fraction of non-NaN
values strictly below it, capped at `bins - 1`. -/
def quantilesCell (valid : List ℚ) (bins : ℕ) (v : ℚ) : ℤ :=
  min ((bins : ℤ) - 1)
    (((valid.filter (fun w => w < v)).length * bins : ℤ) / valid.length)

/-- Modelled from the spec: the per-row quantile binning, NaN-preserving
(`none` in, `none` out), with bins computed from the row's non-NaN
values only. -/
def quantilesRow (row : List (Option ℚ)) (bins : ℕ) : List (Option ℤ) :=
  let valid := row.filterMap id
  row.map (fun c => c.map (quantilesCell valid bins))

/-- `Quantiles._compute` from classifier.py lines 392-400 on one
date-row: `to_bin = where(mask, data, nan)`, bin, then write the
classifier's `missing_value` (-1) into every NaN location of the
result. -/
def Quantiles_compute_row (data : List (Option ℚ)) (mask : List Bool)
    (bins : ℕ) : List ℤ :=
  let to_bin := List.zipWith (fun m d => if m then d else none) mask data
  (quantilesRow to_bin bins).map (fun o => o.getD (-1))

/-- `Quantiles._compute` over the whole matrix: rows are binned
independently. -/
def Quantiles_compute (data : List (List (Option ℚ)))
    (mask : List (List Bool)) (bins : ℕ) : List (List ℤ) :=
  List.zipWith (fun mrow drow => Quantiles_compute_row drow mrow bins)
    mask data

/-- The values of a date-row that survive masking and are not NaN: the
only values that participate in the row's quantile binning. -/
def maskedValid (data : List (Option ℚ)) (mask : List Bool) : List ℚ :=
  (List.zipWith (fun m d => if m then d else none) mask data).filterMap id

/-- The base currency string used by the concrete examples. -/
def usd : String := "usd"

/- ### Benchmark/treasury cache loading (catalyst/data/loader.py) -/

/-- A parsed benchmark/treasury frame, reduced to its date index (the
only part the cache logic consults). -/
structure CacheData where
  dates : List ℤ
deriving Repr, DecidableEq

/-- `has_data_for_dates` from loader.py lines 83-93: the frame's first
index entry is on or before `first_date` and its last entry on or after
`last_date`. -/
def has_data_for_dates (d : CacheData) (first_date last_date : ℤ) : Bool :=
  d.dates.getD 0 0 ≤ first_date ∧ last_date ≤ d.dates.getLastD 0

/-- `ONE_HOUR = pd.Timedelta(hours=1)`, in seconds. -/
def ONE_HOUR : ℤ := 3600

/-- The transient errors `except (OSError, IOError, HTTPError)` catches
in loader.py. -/
inductive IOErr
  | osError
  | ioError
  | httpError
deriving Repr, DecidableEq

/-- An exception escaping `ensure_benchmark_data` or
`ensure_treasury_data`: a re-raised transient I/O error, or the
`AttributeError` raised by calling `has_data_for_dates` on `None`. -/
inductive PyError
  | ioErr (e : IOErr)
  | attributeError
deriving Repr, DecidableEq

/-- The log records the loader functions emit that the spec mentions. -/
inductive LogEvent
  | downloadFailed
  | stillMissingWarning
  | refusingRedownload
deriving Repr, DecidableEq

/-- `_load_cached_data` from loader.py lines 487-531, with the
filesystem and parser passed in: `pathExists` is `os.path.exists(path)`,
`readResult` the outcome of reading and parsing the CSV (`.error` for
the OSError/IOError/ValueError cases, including the empty file), `mtime`
the file's last-modified time and `now` the current time, both in
seconds. Returns the data (`some`) or a cache miss (`none`), plus the
emitted log records. -/
def load_cached_data (pathExists : Bool)
    (readResult : Except Unit CacheData) (first_date last_date : ℤ)
    (mtime now : ℤ) : Option CacheData × List LogEvent :=
  if pathExists then
    match readResult with
    | .error _ => (none, [])
    | .ok data =>
        if has_data_for_dates data first_date last_date then (data, [])
        else if now - mtime ≤ ONE_HOUR then
          (data, [.refusingRedownload])
        else (none, [])
  else (none, [])

/-- `ensure_benchmark_data` from loader.py lines 375-433, with the cache
lookup result and the download/write outcomes passed in: on a cache hit
return the cached data; otherwise download and write the cache, logging
and re-raising any transient error from either step, then warn when the
fresh data still does not cover the requested range. -/
def ensure_benchmark_data (cached : Option CacheData)
    (download : Except IOErr CacheData) (write : Except IOErr Unit)
    (first_date last_date : ℤ) : Except PyError CacheData × List LogEvent :=
  match cached with
  | some d => (.ok d, [])
  | none =>
      match download with
      | .error e => (.error (.ioErr e), [.downloadFailed])
      | .ok d =>
          match write with
          | .error e => (.error (.ioErr e), [.downloadFailed])
          | .ok _ =>
              if has_data_for_dates d first_date last_date then (.ok d, [])
              else (.ok d, [.stillMissingWarning])

/-- `ensure_treasury_data` from loader.py lines 436-484, with the cache
lookup result and the download/write outcomes passed in: on a cache hit
return the cached data; otherwise download and write the cache, logging
but swallowing any transient error from either step. The function then
unconditionally calls `has_data_for_dates(data, ...)`: when the download
itself failed, `data` is still `None` from the cache miss, and that call
raises an `AttributeError`. -/
def ensure_treasury_data (cached : Option CacheData)
    (download : Except IOErr CacheData) (write : Except IOErr Unit)
    (first_date last_date : ℤ) : Except PyError CacheData × List LogEvent :=
  match cached with
  | some d => (.ok d, [])
  | none =>
      match download with
      | .error _ => (.error .attributeError, [.downloadFailed])
      | .ok d =>
          match write with
          | .error _ =>
              if has_data_for_dates d first_date last_date then
                (.ok d, [.downloadFailed])
              else (.ok d, [.downloadFailed, .stillMissingWarning])
          | .ok _ =>
              if has_data_for_dates d first_date last_date then (.ok d, [])
              else (.ok d, [.stillMissingWarning])

/- ### Helper lemmas -/

/-- Case analysis of the cost basis computed by `Position.update`. -/
theorem update_cost_basis_cases (p : Position) (t : Transaction) :
    (p.update t).cost_basis =
      if p.amount + t.amount = 0 then 0
      else if copysign1 p.amount = copysign1 t.amount then
        (p.cost_basis * p.amount + t.amount * t.price) / (p.amount + t.amount)
      else if |p.amount| < |t.amount| then t.price
      else p.cost_basis := by
  unfold Position.update
  by_cases h0 : p.amount + t.amount = 0 <;>
    by_cases h1 : copysign1 p.amount = copysign1 t.amount <;>
      by_cases h2 : |p.amount| < |t.amount| <;>
        cases hn : newerThan t.dt p.last_sale_date <;>
          simp [h0, h1, h2, hn]

/-- The share count computed by `Position.update`. -/
theorem update_amount_eq (p : Position) (t : Transaction) :
    (p.update t).amount =
      match t.commission with
      | some c =>
          if t.fee_currency = some p.base_currency then p.amount + t.amount - c
          else p.amount + t.amount
      | none => p.amount + t.amount := by
  unfold Position.update
  cases t.commission <;> simp

/-- An in-bounds `getD` lookup is a member of the list. -/
theorem getD_mem {l : List ℤ} {i : ℕ} (h : i < l.length) : l.getD i 0 ∈ l := by
  induction l generalizing i with
  | nil => simp at h
  | cons d ds ih =>
    cases i with
    | zero => simp
    | succ k =>
      simp only [List.getD_cons_succ]
      exact List.mem_cons_of_mem _ (ih (by simpa using h))

/-- `get_loc` of an absent date is a `KeyError`. -/
theorem get_loc_eq_none {l : List ℤ} {x : ℤ} (h : x ∉ l) : get_loc l x = none := by
  induction l with
  | nil => rfl
  | cons d ds ih =>
    simp only [List.mem_cons, not_or] at h
    simp [get_loc, h.1, ih h.2]

/-- On a strictly increasing calendar, `get_loc` recovers the index of a
session. -/
theorem get_loc_getD {l : List ℤ} (hs : l.Pairwise (· < ·)) {i : ℕ}
    (hi : i < l.length) : get_loc l (l.getD i 0) = some i := by
  induction l generalizing i with
  | nil => simp at hi
  | cons d ds ih =>
    rcases List.pairwise_cons.mp hs with ⟨hd, hds⟩
    cases i with
    | zero => simp [get_loc]
    | succ k =>
      have hk : k < ds.length := by simpa using hi
      have hmem : ds.getD k 0 ∈ ds := getD_mem hk
      have hne : ds.getD k 0 ≠ d := ne_of_gt (hd _ hmem)
      have hih := ih hds hk
      simp only [List.getD_eq_getElem?_getD] at hne hih
      simp [get_loc, List.getD_cons_succ, hne, hih]

/-- On a strictly increasing calendar, every member is at least the first
entry. -/
theorem head_le_mem {l : List ℤ} (hs : l.Pairwise (· < ·)) {y : ℤ} (hy : y ∈ l) :
    l.getD 0 0 ≤ y := by
  cases l with
  | nil => simp at hy
  | cons d ds =>
    rcases List.pairwise_cons.mp hs with ⟨hd, _⟩
    rcases List.mem_cons.mp hy with h | h
    · simp [h]
    · simpa using le_of_lt (hd _ h)

/-- On a strictly increasing calendar, every member is at most the last
entry. -/
theorem mem_le_last {l : List ℤ} (hs : l.Pairwise (· < ·)) {y : ℤ} (hy : y ∈ l) :
    y ≤ l.getD (l.length - 1) 0 := by
  induction l with
  | nil => simp at hy
  | cons d ds ih =>
    rcases List.pairwise_cons.mp hs with ⟨hd, hds⟩
    cases ds with
    | nil =>
      rcases List.mem_cons.mp hy with h | h
      · simp [h]
      · simp at h
    | cons e t =>
      have hlen : (d :: e :: t).length - 1 = t.length + 1 := by
        simp
      have hstep : (d :: e :: t).getD ((d :: e :: t).length - 1) 0 =
          (e :: t).getD ((e :: t).length - 1) 0 := by
        rw [hlen]
        simp [List.getD_cons_succ]
      rcases List.mem_cons.mp hy with h | h
      · subst h
        have hm : (e :: t).getD ((e :: t).length - 1) 0 ∈ e :: t :=
          getD_mem (by simp)
        rw [hstep]
        exact le_of_lt (hd _ hm)
      · rw [hstep]
        exact ih hds h

/-- Python index 0 is the first entry. -/
theorem pyGet_zero (l : List ℤ) : pyGet l 0 = l.getD 0 0 := rfl

/-- Python index -1 is the last entry. -/
theorem pyGet_neg_one (l : List ℤ) : pyGet l (-1) = l.getD (l.length - 1) 0 := rfl

/-- `dates[i - s]` for natural `s ≤ i` is an ordinary in-bounds lookup. -/
theorem pyGet_sub {l : List ℤ} {i s : ℕ} (h : s ≤ i) :
    pyGet l ((i : ℤ) - (s : ℤ)) = l.getD (i - s) 0 := by
  have h0 : (0 : ℤ) ≤ (i : ℤ) - (s : ℤ) := by omega
  have ht : ((i : ℤ) - (s : ℤ)).toNat = i - s := by omega
  simp [pyGet, h0, ht]

/- ### Claim theorems -/

/-- Counterexample to C1: on a long position of 10 at cost basis 100, a
sell of 5 at price 120 flips direction with smaller magnitude; the total
is nonzero and the flip-and-reset case does not apply, yet the cost basis
stays 100 rather than the size-weighted average 80 that the claim's
"otherwise" clause demands. -/
theorem C1_counterexample :
    (Position.update ⟨usd, 10, 100, 0, none⟩ ⟨-5, 120, 0, none, none⟩).cost_basis = 100 ∧
    (10 : ℚ) + -5 ≠ 0 ∧
    ¬(copysign1 10 ≠ copysign1 (-5) ∧ |(10 : ℚ)| < |(-5 : ℚ)|) ∧
    (100 : ℚ) ≠ (100 * 10 + 120 * -5) / (10 + -5) := by
  refine ⟨by norm_num [Position.update, copysign1, newerThan], by norm_num, ?_, by norm_num⟩
  norm_num [copysign1]

/-- Claim C1 (amended): after `Position.update(t)` the cost basis is 0
when the new total is zero; equals `t.price` when the sign flips and the
transaction's magnitude exceeds the position's; is left unchanged when
the sign flips with smaller-or-equal magnitude and nonzero total; and is
the size-weighted average only when the directions agree (zero amount
counting as positive). Starting from amount 0, a buy of 10 at 100
followed by a sell of 15 at 120 leaves cost basis 120 and amount -5. -/
theorem C1_position_update_cost_basis (p : Position) (t : Transaction) :
    (p.amount + t.amount = 0 → (p.update t).cost_basis = 0) ∧
    (copysign1 p.amount ≠ copysign1 t.amount → |p.amount| < |t.amount| →
      (p.update t).cost_basis = t.price) ∧
    (copysign1 p.amount ≠ copysign1 t.amount → ¬ |p.amount| < |t.amount| →
      p.amount + t.amount ≠ 0 → (p.update t).cost_basis = p.cost_basis) ∧
    (copysign1 p.amount = copysign1 t.amount → p.amount + t.amount ≠ 0 →
      (p.update t).cost_basis =
        (p.cost_basis * p.amount + t.price * t.amount) / (p.amount + t.amount)) ∧
    (((Position.update ⟨usd, 0, 0, 0, none⟩ ⟨10, 100, 1, none, none⟩).update
        ⟨-15, 120, 2, none, none⟩).cost_basis = 120 ∧
     ((Position.update ⟨usd, 0, 0, 0, none⟩ ⟨10, 100, 1, none, none⟩).update
        ⟨-15, 120, 2, none, none⟩).amount = -5) := by
  refine ⟨fun h0 => ?_, fun h1 h2 => ?_, fun h1 h2 h0 => ?_, fun h1 h0 => ?_, ?_, ?_⟩
  · rw [update_cost_basis_cases]
    simp [h0]
  · have h0 : p.amount + t.amount ≠ 0 := by
      intro h
      have ht : t.amount = -p.amount := by linarith
      rw [ht, abs_neg] at h2
      exact absurd h2 (lt_irrefl _)
    rw [update_cost_basis_cases]
    simp [h0, h1, h2]
  · rw [update_cost_basis_cases]
    simp [h0, h1, h2]
  · rw [update_cost_basis_cases]
    simp [h0, h1, mul_comm]
  · norm_num [Position.update, copysign1, newerThan, usd]
  · norm_num [Position.update, copysign1, newerThan, usd]

/-- Witness for the amended C1: a same-direction buy of 5 at 120 on a
long position of 10 at cost 100 produces the size-weighted average. -/
theorem C1_witness :
    (Position.update ⟨usd, 10, 100, 0, none⟩ ⟨5, 120, 3, none, none⟩).cost_basis =
      (100 * 10 + 120 * 5) / (10 + 5) := by
  exact (C1_position_update_cost_basis ⟨usd, 10, 100, 0, none⟩
    ⟨5, 120, 3, none, none⟩).2.2.2.1 (by norm_num [copysign1]) (by norm_num)

/-- Claim C2: on a strictly increasing calendar, `_shift_dates` returns
the sessions `shift` positions earlier when both endpoints are sessions
with index at least `shift`; raises `NoFurtherDataError` when the start
precedes the first known date, when the start's index is below `shift`,
or when the end is after the last known date; and raises a plain lookup
`ValueError` when the start or the end lies within the calendar's bounds
but is not itself a session. -/
theorem C2_shift_dates (dates : List ℤ) (start_date end_date : ℤ)
    (shift i j : ℕ) (hsorted : dates.Pairwise (· < ·)) :
    (i < dates.length → j < dates.length → shift ≤ i → shift ≤ j →
      shift_dates dates (dates.getD i 0) (dates.getD j 0) shift =
        .ok (dates.getD (i - shift) 0, dates.getD (j - shift) 0)) ∧
    (start_date < dates.getD 0 0 →
      shift_dates dates start_date end_date shift = .error .noFurtherData) ∧
    (i < dates.length → i < shift →
      shift_dates dates (dates.getD i 0) end_date shift =
        .error .noFurtherData) ∧
    (i < dates.length → shift ≤ i → dates.getD (dates.length - 1) 0 < end_date →
      shift_dates dates (dates.getD i 0) end_date shift =
        .error .noFurtherData) ∧
    (start_date ∉ dates → dates.getD 0 0 ≤ start_date →
      shift_dates dates start_date end_date shift = .error .valueError) ∧
    (i < dates.length → shift ≤ i → end_date ∉ dates →
      end_date ≤ dates.getD (dates.length - 1) 0 →
      shift_dates dates (dates.getD i 0) end_date shift =
        .error .valueError) := by
  refine ⟨fun hi hj hsi hsj => ?_, fun hlt => ?_, fun hi his => ?_,
          fun hi hsi hlt => ?_, fun hnm hge => ?_, fun hi hsi hnm hle => ?_⟩
  · unfold shift_dates
    rw [get_loc_getD hsorted hi, get_loc_getD hsorted hj]
    simp [Nat.not_lt.mpr hsi, pyGet_sub hsi, pyGet_sub hsj]
  · have hnm : start_date ∉ dates := fun hm =>
      absurd (head_le_mem hsorted hm) (not_le.mpr hlt)
    simp only [List.getD_eq_getElem?_getD] at hlt
    unfold shift_dates
    rw [get_loc_eq_none hnm]
    simp [pyGet_zero, hlt]
  · unfold shift_dates
    rw [get_loc_getD hsorted hi]
    simp [his]
  · have hnm : end_date ∉ dates := fun hm =>
      absurd (mem_le_last hsorted hm) (not_le.mpr hlt)
    simp only [List.getD_eq_getElem?_getD] at hlt
    unfold shift_dates
    rw [get_loc_getD hsorted hi, get_loc_eq_none hnm]
    simp [Nat.not_lt.mpr hsi, pyGet_neg_one, hlt]
  · simp only [List.getD_eq_getElem?_getD] at hge
    unfold shift_dates
    rw [get_loc_eq_none hnm]
    simp [pyGet_zero, not_lt.mpr hge]
  · simp only [List.getD_eq_getElem?_getD] at hle
    unfold shift_dates
    rw [get_loc_getD hsorted hi, get_loc_eq_none hnm]
    simp [Nat.not_lt.mpr hsi, pyGet_neg_one, not_lt.mpr hle]

/-- Witness for C2: on the calendar [0, 10, 20, 30] with shift 1, the
range [20, 30] shifts to (10, 20), and a query starting at the first
session raises `NoFurtherDataError`. -/
theorem C2_witness :
    shift_dates [0, 10, 20, 30] 20 30 1 = .ok (10, 20) ∧
    shift_dates [0, 10, 20, 30] 0 30 1 = .error .noFurtherData := by
  constructor
  · exact (C2_shift_dates [0, 10, 20, 30] 20 30 1 2 3 (by decide)).1
      (by decide) (by decide) (by decide) (by decide)
  · exact (C2_shift_dates [0, 10, 20, 30] 0 30 1 0 0 (by decide)).2.2.1
      (by decide) (by decide)

/-- Claim C3: comparing a Classifier against its own missing value, via
`eq` or via `element_of` with the missing value among the choices, fails
with the vacuous-result `InvalidOperation` guard before any Filter term
is constructed. -/
theorem C3_vacuous_guards (c : Classifier) (m : Scalar) (choices : List Scalar)
    (hm : m = c.missing_value) (hc : m ∈ choices) :
    c.eq m = .error .invalidOperation ∧
    c.element_of choices = .error .invalidOperation := by
  subst hm
  constructor
  · unfold Classifier.eq
    simp
  · unfold Classifier.element_of
    simp [hc]

/-- Witness for C3: an int64 Classifier with missing value -1, compared
against -1 and against a choice set containing -1. -/
theorem C3_witness :
    Classifier.eq ⟨Dtype.int64, Scalar.int (-1)⟩ (Scalar.int (-1)) =
      .error .invalidOperation ∧
    Classifier.element_of ⟨Dtype.int64, Scalar.int (-1)⟩
      [Scalar.int (-1), Scalar.int 0] = .error .invalidOperation :=
  C3_vacuous_guards ⟨Dtype.int64, Scalar.int (-1)⟩ (Scalar.int (-1))
    [Scalar.int (-1), Scalar.int 0] (by decide) (by decide)

/-- Claim C4: when the operand's kind matches the dtype, the Filter
built by `Classifier.__ne__` is true exactly at cells whose value
differs from the operand and from the missing value; when the kind
disagrees with the dtype, `__ne__` raises the `TypeMismatch` error, and
`eq` applies the same kind-vs-dtype check. -/
theorem C4_ne_semantics (c : Classifier) (other : Scalar) :
    (other.isNumber = decide (c.dtype = Dtype.int64) →
      ∃ f : PipelineFilter, c.ne other = .ok f ∧
        ∀ v : Scalar, f.pred v = true ↔ (v ≠ other ∧ v ≠ c.missing_value)) ∧
    (other.isNumber ≠ decide (c.dtype = Dtype.int64) →
      c.ne other = .error .typeMismatch) ∧
    (other.isNumber ≠ decide (c.dtype = Dtype.int64) →
      other ≠ c.missing_value → c.eq other = .error .typeMismatch) := by
  refine ⟨fun h => ?_, fun h => ?_, fun h hm => ?_⟩
  · unfold Classifier.ne
    rw [if_neg (by simp [h])]
    cases hob : other.isNumber
    · rw [if_neg (by simp [hob])]
      exact ⟨_, rfl, fun v => by simp⟩
    · rw [if_pos (by simp [hob])]
      exact ⟨_, rfl, fun v => by simp⟩
  · unfold Classifier.ne
    rw [if_pos h]
  · unfold Classifier.eq
    rw [if_neg hm, if_pos h]

/-- Witness for C4: comparing an int64 Classifier against a string via
not-equal or equal raises the `TypeMismatch` error. -/
theorem C4_witness :
    Classifier.ne ⟨Dtype.int64, Scalar.int (-1)⟩ (Scalar.str usd) =
      .error .typeMismatch ∧
    Classifier.eq ⟨Dtype.int64, Scalar.int (-1)⟩ (Scalar.str usd) =
      .error .typeMismatch :=
  ⟨(C4_ne_semantics ⟨Dtype.int64, Scalar.int (-1)⟩ (Scalar.str usd)).2.1
      (by decide),
   (C4_ne_semantics ⟨Dtype.int64, Scalar.int (-1)⟩ (Scalar.str usd)).2.2
      (by decide) (by decide)⟩

/-- Claim C5: `Quantiles._compute` assigns the missing value -1 to every
masked-out cell and to every cell that is NaN after masking; every
surviving cell is binned using only the row's masked-in non-NaN values;
and rows of the matrix are binned independently of one another. -/
theorem C5_quantiles_missing_and_mask (data : List (Option ℚ))
    (mask : List Bool) (bins : ℕ) (j : ℕ)
    (dm : List (List (Option ℚ))) (mm : List (List Bool)) (i : ℕ)
    (hj : j < data.length) (hjm : j < mask.length) :
    (mask.getD j false = false →
      (Quantiles_compute_row data mask bins).getD j 0 = -1) ∧
    (data.getD j none = none →
      (Quantiles_compute_row data mask bins).getD j 0 = -1) ∧
    (∀ v : ℚ, mask.getD j false = true → data.getD j none = some v →
      (Quantiles_compute_row data mask bins).getD j 0 =
        quantilesCell (maskedValid data mask) bins v) ∧
    (i < dm.length → i < mm.length →
      (Quantiles_compute dm mm bins).getD i [] =
        Quantiles_compute_row (dm.getD i []) (mm.getD i []) bins) := by
  obtain ⟨mval, hmv⟩ : ∃ m, mask[j]? = some m :=
    ⟨_, List.getElem?_eq_getElem hjm⟩
  obtain ⟨dval, hdv⟩ : ∃ d, data[j]? = some d :=
    ⟨_, List.getElem?_eq_getElem hj⟩
  have hmg : mask.getD j false = mval := by
    rw [List.getD_eq_getElem?_getD, hmv]; rfl
  have hdg : data.getD j none = dval := by
    rw [List.getD_eq_getElem?_getD, hdv]; rfl
  have hto : (List.zipWith (fun m d => if m then d else none) mask data)[j]? =
      some (if mval then dval else none) := by
    rw [List.getElem?_zipWith, hmv, hdv]
  have hfinal : (Quantiles_compute_row data mask bins).getD j 0 =
      ((if mval then dval else none).map
        (quantilesCell (maskedValid data mask) bins)).getD (-1) := by
    unfold Quantiles_compute_row quantilesRow
    rw [List.getD_eq_getElem?_getD, List.getElem?_map, List.getElem?_map, hto]
    rfl
  refine ⟨fun hm0 => ?_, fun hd0 => ?_, fun v hm1 hdv1 => ?_, fun hdm hmm => ?_⟩
  · rw [hmg] at hm0
    rw [hfinal, hm0]
    rfl
  · rw [hdg] at hd0
    rw [hfinal, hd0]
    cases mval <;> rfl
  · rw [hmg] at hm1
    rw [hdg] at hdv1
    rw [hfinal, hm1, hdv1]
    rfl
  · unfold Quantiles_compute
    rw [List.getD_eq_getElem?_getD, List.getElem?_zipWith,
        List.getElem?_eq_getElem hmm, List.getElem?_eq_getElem hdm]
    simp [List.getD_eq_getElem?_getD, List.getElem?_eq_getElem hdm,
          List.getElem?_eq_getElem hmm]

/-- Witness for C5: in a row with mask [true, false, true, true], the
masked-out cell at index 1 and the NaN cell at index 2 both receive the
missing value -1. -/
theorem C5_witness :
    (Quantiles_compute_row [some 1, some 2, none, some 3]
      [true, false, true, true] 2).getD 1 0 = -1 ∧
    (Quantiles_compute_row [some 1, some 2, none, some 3]
      [true, false, true, true] 2).getD 2 0 = -1 := by
  constructor
  · exact (C5_quantiles_missing_and_mask [some 1, some 2, none, some 3]
      [true, false, true, true] 2 1 [] [] 0 (by decide) (by decide)).1 (by decide)
  · exact (C5_quantiles_missing_and_mask [some 1, some 2, none, some 3]
      [true, false, true, true] 2 2 [] [] 0 (by decide) (by decide)).2.1 (by simp)

/-- Claim C6: `handle_split(ratio)` floors the post-split share count,
rounds the scaled cost basis to cent precision, and returns the
fractional remainder valued at the new cost basis, rounded to cents; on
amount 100, cost basis 60, ratio 3 this gives amount 33, cost basis 180
and returned cash 60. -/
theorem C6_handle_split (p : Position) (ratio : ℚ) (_hr : 0 < ratio) :
    (p.handle_split ratio).1.amount = ((⌊p.amount / ratio⌋ : ℤ) : ℚ) ∧
    (p.handle_split ratio).1.cost_basis = round2 (p.cost_basis * ratio) ∧
    (p.handle_split ratio).2 =
      round2 ((p.amount / ratio - ((⌊p.amount / ratio⌋ : ℤ) : ℚ)) *
        round2 (p.cost_basis * ratio)) ∧
    ((Position.handle_split ⟨usd, 100, 60, 0, none⟩ 3).1.amount = 33 ∧
     (Position.handle_split ⟨usd, 100, 60, 0, none⟩ 3).1.cost_basis = 180 ∧
     (Position.handle_split ⟨usd, 100, 60, 0, none⟩ 3).2 =
       round2 ((100 / 3 - 33) * 180) ∧
     (Position.handle_split ⟨usd, 100, 60, 0, none⟩ 3).2 = 60) := by
  refine ⟨rfl, rfl, rfl, ?_, ?_, ?_, ?_⟩ <;>
    norm_num [Position.handle_split, round2, roundHalfEven]

/-- Witness for C6: the cost basis after a 3-for-1 split of a position
held at cost 60 is the rounded scaled cost. -/
theorem C6_witness :
    (Position.handle_split ⟨usd, 100, 60, 0, none⟩ 3).1.cost_basis =
      round2 (60 * 3) := by
  exact (C6_handle_split ⟨usd, 100, 60, 0, none⟩ 3 (by norm_num)).2.1

/-- Counterexample to C7: on a cache miss, when the treasury download
itself fails with a transient error, `ensure_treasury_data` does not
return any data: it swallows the download error, then crashes with an
`AttributeError` because `has_data_for_dates` is called on `None`. -/
theorem C7_counterexample :
    (ensure_treasury_data none (.error .httpError) (.ok ()) 0 0).1.toOption =
      none ∧
    (ensure_treasury_data none (.error .httpError) (.ok ()) 0 0).1 =
      .error .attributeError ∧
    (ensure_treasury_data none (.error .httpError) (.ok ()) 0 0).2 =
      [.downloadFailed] :=
  ⟨rfl, rfl, rfl⟩

/-- Claim C7 (amended): when the fresh download fails with a transient
file or network error, `ensure_benchmark_data` logs the failure and
re-raises it; `ensure_treasury_data` logs and swallows the error, but it
returns the (possibly range-incomplete, with a warning) fresh data only
when the fetch succeeded and the cache write failed — when the fetch
itself failed it raises an `AttributeError` instead of returning. -/
theorem C7_download_failure_paths (d : CacheData) (e : IOErr)
    (w : Except IOErr Unit) (first_date last_date : ℤ) :
    (ensure_benchmark_data none (.error e) w first_date last_date =
      (.error (.ioErr e), [.downloadFailed])) ∧
    (ensure_treasury_data none (.error e) w first_date last_date =
      (.error .attributeError, [.downloadFailed])) ∧
    (ensure_treasury_data none (.ok d) (.error e) first_date last_date =
      (.ok d,
       if has_data_for_dates d first_date last_date then [.downloadFailed]
       else [.downloadFailed, .stillMissingWarning])) := by
  refine ⟨rfl, rfl, ?_⟩
  cases h : has_data_for_dates d first_date last_date <;>
    simp [ensure_treasury_data, h]

/-- Claim C8: `_load_cached_data` returns the cached data when it covers
the requested range; when it does not cover, it still returns the stale
data (suppressing re-download, with a warning log) while at most one
hour has passed since the last successful write, and signals a cache
miss otherwise; a missing file or an unreadable/empty file is a cache
miss. -/
theorem C8_load_cached_data (pathExists : Bool) (d : CacheData)
    (readResult : Except Unit CacheData) (first_date last_date mtime now : ℤ) :
    (has_data_for_dates d first_date last_date = true ↔
      (d.dates.getD 0 0 ≤ first_date ∧ last_date ≤ d.dates.getLastD 0)) ∧
    (has_data_for_dates d first_date last_date = true →
      load_cached_data true (.ok d) first_date last_date mtime now =
        (some d, [])) ∧
    (has_data_for_dates d first_date last_date = false →
      now - mtime ≤ ONE_HOUR →
      load_cached_data true (.ok d) first_date last_date mtime now =
        (some d, [.refusingRedownload])) ∧
    (has_data_for_dates d first_date last_date = false →
      ONE_HOUR < now - mtime →
      load_cached_data true (.ok d) first_date last_date mtime now =
        (none, [])) ∧
    (load_cached_data false readResult first_date last_date mtime now =
      (none, [])) ∧
    (load_cached_data pathExists (.error ()) first_date last_date mtime now =
      (none, [])) := by
  refine ⟨?_, fun hcov => ?_, fun hcov hfresh => ?_, fun hcov hstale => ?_,
          rfl, ?_⟩
  · simp [has_data_for_dates]
  · simp [load_cached_data, hcov]
  · simp [load_cached_data, hcov, hfresh]
  · simp [load_cached_data, hcov, not_le.mpr hstale]
  · cases pathExists <;> simp [load_cached_data]

/-- Witness for C8: a covering cache is returned; a stale non-covering
cache written two hours ago is a miss. -/
theorem C8_witness :
    load_cached_data true (.ok ⟨[0, 100]⟩) 0 50 0 0 = (some ⟨[0, 100]⟩, []) ∧
    load_cached_data true (.ok ⟨[10, 20]⟩) 0 50 0 7200 = (none, []) := by
  constructor
  · exact (C8_load_cached_data true ⟨[0, 100]⟩ (.ok ⟨[0, 100]⟩) 0 50 0 0).2.1
      (by decide)
  · exact (C8_load_cached_data true ⟨[10, 20]⟩ (.ok ⟨[10, 20]⟩)
      0 50 0 7200).2.2.2.1 (by decide) (by decide)

/-- Claim C9: a transaction that exactly closes a position resets the
cost basis to 0 but leaves the last-sale price and date untouched, even
when the transaction's timestamp is newer than the recorded last-sale
date (the last-sale update sits in the branch skipped when the total is
zero). -/
theorem C9_update_close_keeps_last_sale (p : Position) (t : Transaction)
    (h : p.amount + t.amount = 0) :
    (p.update t).last_sale_price = p.last_sale_price ∧
    (p.update t).last_sale_date = p.last_sale_date ∧
    (p.update t).cost_basis = 0 := by
  unfold Position.update
  simp [h]

/-- Witness for C9: closing a 5-unit position with a sell dated after
the recorded last-sale date leaves the last-sale fields unchanged. -/
theorem C9_witness :
    (Position.update ⟨usd, 5, 100, 50, some 10⟩ ⟨-5, 120, 20, none, none⟩).last_sale_price = 50 ∧
    (Position.update ⟨usd, 5, 100, 50, some 10⟩ ⟨-5, 120, 20, none, none⟩).last_sale_date = some 10 ∧
    (Position.update ⟨usd, 5, 100, 50, some 10⟩ ⟨-5, 120, 20, none, none⟩).cost_basis = 0 := by
  exact C9_update_close_keeps_last_sale ⟨usd, 5, 100, 50, some 10⟩
    ⟨-5, 120, 20, none, none⟩ (by norm_num)

/-- Claim C10: when a transaction carries a commission in the asset's
base currency, `Position.update` deducts the commission from the share
count; a transaction that exactly closes the position but carries a
commission leaves a short position of exactly the commission, with cost
basis 0. -/
theorem C10_update_commission_deduction (p : Position) (t : Transaction)
    (c : ℚ) (hc : t.commission = some c)
    (hf : t.fee_currency = some p.base_currency) :
    (p.update t).amount = p.amount + t.amount - c ∧
    (p.amount + t.amount = 0 →
      (p.update t).amount = -c ∧ (p.update t).cost_basis = 0) := by
  refine ⟨?_, fun h0 => ⟨?_, ?_⟩⟩
  · rw [update_amount_eq, hc]
    simp [hf]
  · rw [update_amount_eq, hc]
    simp [hf, h0]
  · rw [update_cost_basis_cases]
    simp [h0]

/-- Witness for C10: closing a 5-unit position with a commission of 1/10
in the base currency leaves amount -1/10 and cost basis 0. -/
theorem C10_witness :
    (Position.update ⟨usd, 5, 100, 0, none⟩
      ⟨-5, 120, 1, some (1/10), some usd⟩).amount = -(1/10) ∧
    (Position.update ⟨usd, 5, 100, 0, none⟩
      ⟨-5, 120, 1, some (1/10), some usd⟩).cost_basis = 0 := by
  have h := C10_update_commission_deduction ⟨usd, 5, 100, 0, none⟩
    ⟨-5, 120, 1, some (1/10), some usd⟩ (1/10) rfl rfl
  exact h.2 (by norm_num)
